import Mathlib

/-!
# A shallow embedding of `src/lib/internal/task.js`

The source file implements a minimal cancellable asynchronous `Task`
primitive together with an internal sequencing combinator `compose`
(backing `thenDo`).  Tasks finish at most once with a pair
`(err, result)`; completion, cancellation, listener registration and the
deferred (`process.nextTick`) scheduling of continuations are all
modelled here as explicit state transitions on a `World`.

Modelling decisions (all read off the source):

* JavaScript values that flow through the library (errors, results,
  thrown values) are modelled by `Val`, with `null` and `undefined` as
  separate constructors so that the loose comparison `firstErr == null`
  (task.js line 191) and the strict comparison `firstErr === 'cancelled'`
  (line 185) can both be rendered faithfully (`looseNull`, resp.
  decidable equality with `cancelledSentinel`).
* Each `Task.start` closure heap (the captured variables `finished`,
  `onFinish`, `abort`) becomes a `TaskRec` stored in `World.tasks`,
  indexed by its allocation position.
* Each `compose` closure heap (`cancelled`, `currentTask`, plus the
  captured composite resolve/reject which are just `finish` on the
  composite's task id) becomes a `ComposeRec` stored in `World.comps`.
* `process.nextTick(fn)` appends a `Deferred` item to the FIFO
  `World.queue`; `stepWorld` pops and runs the head, exactly the
  cooperative scheduler the library assumes.
* User-supplied code (starter functions, continuation factories, abort
  capabilities, listeners, cleanup functions) is deep-embedded by the
  shapes the library can observe: a starter performs a list of
  synchronous resolve/reject calls and then returns an optional abort or
  throws; a factory logs its invocation and returns a task / nothing or
  throws; aborts, listeners and cleanups append to observation logs.
-/

/-- JavaScript values as far as the library inspects them. -/
inductive Val where
  | null
  | undef
  | str (s : String)
  | num (n : Int)
  | errObj (msg : String)
  deriving DecidableEq, Repr

/-- The loose comparison `x == null`, true exactly on `null` and
`undefined` (task.js line 191: `firstErr == null`). -/
def looseNull : Val → Bool
  | .null => true
  | .undef => true
  | _ => false

/-- The reserved cancellation sentinel `'cancelled'` (task.js line 84). -/
def cancelledSentinel : Val := .str "cancelled"

/-- Ids into `World.tasks`. -/
abbrev TaskId := Nat

/-- Ids into `World.comps`. -/
abbrev ComposeId := Nat

/-- The `abort` capability stored by a task: either user code (observed
by logging its id) or the `cancelCompositeTask` closure created by
`compose` (task.js lines 173-178). -/
inductive Abort where
  | user (aid : Nat)
  | composeCancel (cid : ComposeId)
  deriving DecidableEq, Repr

/-- The `onFinish` listener stored by a task: a user callback (observed
by logging), the first-task listener installed by `compose`
(task.js lines 181-217), or the wrapper installed by `finally`
(lines 133-138) which reschedules the cleanup onto the deferred queue. -/
inductive Listener where
  | user (oid : Nat)
  | composeFirst (cid : ComposeId)
  | finallyWrap (oid : Nat)
  deriving DecidableEq, Repr

/-- One synchronous call a starter makes to its completion callbacks. -/
inductive SAct where
  | resolve (v : Val)
  | reject (v : Val)
  deriving DecidableEq, Repr

/-- How a starter ends: return an optional abort capability, or throw. -/
inductive StarterRet where
  | ret (abort : Option Nat)
  | raise (v : Val)
  deriving DecidableEq, Repr

/-- A deep-embedded starter function (`doSomething`): its synchronous
completion calls in order, then its ending. -/
structure StarterSpec where
  acts : List SAct
  fin : StarterRet
  deriving DecidableEq, Repr

/-- What a user continuation factory does after being invoked. -/
inductive FactoryRet where
  | task (tid : TaskId)
  | newTask (st : StarterSpec)
  | nothing
  | raise (v : Val)
  deriving DecidableEq, Repr

/-- A continuation factory passed to `thenDo`: user code (logged), or
the captured `resolveCompositeTask` / `rejectCompositeTask` of a
composite, which `compose` itself passes to the inner `thenDo`
(task.js line 212). -/
inductive Factory where
  | user (fid : Nat) (ret : FactoryRet)
  | resolveComposite (cid : ComposeId)
  | rejectComposite (cid : ComposeId)
  deriving DecidableEq, Repr

/-- The closure state of one `Task.start` call: `finished` (the
write-once `(err, result)` cell), `abort`, and `onFinish`. -/
structure TaskRec where
  finished : Option (Val × Val)
  abort : Option Abort
  onFinish : Option Listener
  deriving DecidableEq, Repr

/-- The closure state of one `compose` call: `cancelled`, `currentTask`,
the composite task's id (whose `finish` is the captured
`resolveCompositeTask` / `rejectCompositeTask`), and the two factories. -/
structure ComposeRec where
  cancelled : Bool
  currentTask : Option TaskId
  compositeTask : TaskId
  onResolve : Option Factory
  onReject : Option Factory
  deriving DecidableEq, Repr

/-- Items on the `process.nextTick` queue: the deferred body of a
compose first-task listener (task.js lines 184-216), or a deferred
`finally` cleanup (line 135). -/
inductive Deferred where
  | composeStep (cid : ComposeId) (firstErr : Val) (firstResult : Val)
  | runCleanup (oid : Nat)
  deriving DecidableEq, Repr

/-- The whole mutable state: task heap, compose heap, FIFO deferred
queue, and the observation logs for user aborts, user listeners, user
factories, cleanups, and exceptions escaping into the scheduler. -/
structure World where
  tasks : List TaskRec
  comps : List ComposeRec
  queue : List Deferred
  abortLog : List Nat
  obsLog : List (Nat × Val × Val)
  factoryLog : List (Nat × Val)
  cleanupLog : List Nat
  uncaught : List Val
  deriving DecidableEq, Repr

/-- The empty initial world. -/
def initWorld : World := ⟨[], [], [], [], [], [], [], []⟩

/-- Look a task up. -/
def getTask (w : World) (tid : TaskId) : Option TaskRec :=
  w.tasks.get? tid

/-- Look a compose record up. -/
def getComp (w : World) (cid : ComposeId) : Option ComposeRec :=
  w.comps.get? cid

/-- The recorded outcome of a task, if finished. -/
def taskOutcome (w : World) (tid : TaskId) : Option (Val × Val) :=
  (w.tasks.get? tid).bind (·.finished)

/-- `currentTask = x` on a compose record (task.js lines 182, 193, 200). -/
def setCompCurrent (cid : ComposeId) (ct : Option TaskId) (w : World) : World :=
  match w.comps.get? cid with
  | none => w
  | some c => { w with comps := w.comps.set cid { c with currentTask := ct } }

/-- Run a task's listener with the just-recorded outcome.  A user
listener logs; the `compose` first-task listener clears `currentTask`
and schedules the remaining logic on the deferred queue (task.js
lines 181-184); the `finally` wrapper reschedules the cleanup
(line 135). -/
def notifyListener (l : Listener) (err res : Val) (w : World) : World :=
  match l with
  | .user oid => { w with obsLog := w.obsLog ++ [(oid, err, res)] }
  | .finallyWrap oid => { w with queue := w.queue ++ [.runCleanup oid] }
  | .composeFirst cid =>
      let w1 := setCompCurrent cid none w
      { w1 with queue := w1.queue ++ [.composeStep cid err res] }

/-- `finish(err, result)` (task.js lines 59-64): if not yet finished,
record the outcome and, if a listener is present, run it.  A second
call is a complete no-op. -/
def finish (tid : TaskId) (err res : Val) (w : World) : World :=
  match w.tasks.get? tid with
  | none => w
  | some t =>
    match t.finished with
    | some _ => w
    | none =>
      let w1 := { w with tasks := w.tasks.set tid { t with finished := some (err, res) } }
      match t.onFinish with
      | none => w1
      | some l => notifyListener l err res w1

/-- The `resolve` callback handed to a starter (task.js line 69). -/
def resolveCb (tid : TaskId) (v : Val) (w : World) : World :=
  finish tid .null v w

/-- The `reject` callback handed to a starter (task.js line 70). -/
def rejectCb (tid : TaskId) (e : Val) (w : World) : World :=
  finish tid e .null w

/-- Perform a starter's synchronous completion calls in order. -/
def runActs (acts : List SAct) (tid : TaskId) (w : World) : World :=
  match acts with
  | [] => w
  | .resolve v :: rest => runActs rest tid (resolveCb tid v w)
  | .reject v :: rest => runActs rest tid (rejectCb tid v w)

/-- Store the starter's returned abort capability (task.js line 68:
`var abort = doSomething(...)`, assigned after the starter returns). -/
def setAbort (tid : TaskId) (ab : Option Abort) (w : World) : World :=
  match w.tasks.get? tid with
  | none => w
  | some t => { w with tasks := w.tasks.set tid { t with abort := ab } }

/-- `Task.start(doSomething)` (task.js lines 50-74): allocate the fresh
closure state, invoke the starter immediately; if it returns, store its
abort capability; if it throws, catch and `finish(err, null)`
(lines 71-73). -/
def startTask (st : StarterSpec) (w : World) : TaskId × World :=
  let tid := w.tasks.length
  let w1 : World := { w with tasks := w.tasks ++ [⟨none, none, none⟩] }
  let w2 := runActs st.acts tid w1
  match st.fin with
  | .ret ab => (tid, setAbort tid (ab.map .user) w2)
  | .raise v => (tid, finish tid v .null w2)

/-- `Task.withValue(result)` (task.js lines 146-150). -/
def withValue (v : Val) (w : World) : TaskId × World :=
  startTask ⟨[.resolve v], .ret none⟩ w

/-- `me.cancel()` (task.js lines 82-87): if not finished, finish with
`('cancelled', null)`, then invoke `abort` if present.  The
`cancelCompositeTask` abort (lines 173-178) sets the compose record's
`cancelled` flag and cancels `currentTask` if non-null; the recursion
through chained composites is bounded by fuel. -/
def cancel : Nat → TaskId → World → World
  | 0, _, w => w
  | Nat.succ fuel, tid, w =>
    match w.tasks.get? tid with
    | none => w
    | some t =>
      match t.finished with
      | some _ => w
      | none =>
        let w1 := finish tid cancelledSentinel .null w
        match t.abort with
        | none => w1
        | some (.user aid) => { w1 with abortLog := w1.abortLog ++ [aid] }
        | some (.composeCancel cid) =>
          match w1.comps.get? cid with
          | none => w1
          | some c =>
            let w2 := { w1 with comps := w1.comps.set cid { c with cancelled := true } }
            match c.currentTask with
            | none => w2
            | some t2 => cancel fuel t2 w2

/-- `cancel()` with enough fuel: every recursive step has just finished
one previously-running task, so the chain length is bounded by the
number of tasks. -/
def cancelTask (tid : TaskId) (w : World) : World :=
  cancel (w.tasks.length + 1) tid w

/-- `setListener(callback)` (task.js lines 95-103): throws
`Error('thenDo/finally called more than once')` if a listener is
already present; otherwise store it and, if the task is already
finished, invoke it immediately on the same stack.  Returns the new
world and the thrown value, if any. -/
def setListener (tid : TaskId) (l : Listener) (w : World) : World × Option Val :=
  match w.tasks.get? tid with
  | none => (w, none)
  | some t =>
    match t.onFinish with
    | some _ => (w, some (.errObj "thenDo/finally called more than once"))
    | none =>
      let w1 : World := { w with tasks := w.tasks.set tid { t with onFinish := some l } }
      match t.finished with
      | none => (w1, none)
      | some (e, r) => (notifyListener l e r w1, none)

/-- `compose(firstTask, setFirstTaskListener, onResolve, onReject)`
(task.js lines 166-219): allocate the compose closure state
(`cancelled` unset, `currentTask = firstTask`), allocate the composite
task whose starter captures resolve/reject and returns
`cancelCompositeTask`, then register the first-task listener — which
throws if `firstTask` already has one.  Returns the composite's id or
the thrown value. -/
def compose (firstTask : TaskId) (onResolve onReject : Option Factory) (w : World) :
    World × Except Val TaskId :=
  let cid := w.comps.length
  let ctid := w.tasks.length
  let w1 : World := { w with
    tasks := w.tasks ++ [⟨none, some (.composeCancel cid), none⟩],
    comps := w.comps ++ [⟨false, some firstTask, ctid, onResolve, onReject⟩] }
  match setListener firstTask (.composeFirst cid) w1 with
  | (w2, some e) => (w2, .error e)
  | (w2, none) => (w2, .ok ctid)

/-- `me.thenDo(onResolve, onReject)` (task.js lines 122-124). -/
def thenDo (tid : TaskId) (onResolve onReject : Option Factory) (w : World) :
    World × Except Val TaskId :=
  compose tid onResolve onReject w

/-- `me.finally(cleanup)` (task.js lines 133-138): sugar over
`setListener` with the deferring wrapper. -/
def finallyDo (tid : TaskId) (oid : Nat) (w : World) : World × Option Val :=
  setListener tid (.finallyWrap oid) w

/-- Invoke a continuation factory with its argument.  User factories
log the call and then act per their shape; `resolveCompositeTask` /
`rejectCompositeTask` finish the composite and return `undefined`
(i.e. no task). -/
def invokeFactory (f : Factory) (arg : Val) (w : World) :
    World × Except Val (Option TaskId) :=
  match f with
  | .user fid ret =>
    let w1 : World := { w with factoryLog := w.factoryLog ++ [(fid, arg)] }
    match ret with
    | .task tid => (w1, .ok (some tid))
    | .newTask st =>
      match startTask st w1 with
      | (tid, w2) => (w2, .ok (some tid))
    | .nothing => (w1, .ok none)
    | .raise v => (w1, .error v)
  | .resolveComposite cid =>
    match w.comps.get? cid with
    | none => (w, .ok none)
    | some c => (finish c.compositeTask .null arg w, .ok none)
  | .rejectComposite cid =>
    match w.comps.get? cid with
    | none => (w, .ok none)
    | some c => (finish c.compositeTask arg .null w, .ok none)

/-- The tail of the deferred compose body (task.js lines 211-215):
record the factory's returned task as `currentTask`; if it is a task,
chain the composite's resolve/reject onto it with `thenDo` (an inner
`compose`; a throw there escapes into the scheduler); otherwise
`resolveCompositeTask(undefined)`. -/
def afterFactory (cid : ComposeId) (ot : Option TaskId) (w : World) : World :=
  let w1 := setCompCurrent cid ot w
  match ot with
  | some t =>
    match compose t (some (.resolveComposite cid)) (some (.rejectComposite cid)) w1 with
    | (w2, .error e) => { w2 with uncaught := w2.uncaught ++ [e] }
    | (w2, .ok _) => w2
  | none =>
    match w1.comps.get? cid with
    | none => w1
    | some c => finish c.compositeTask .null .undef w1

/-- The deferred body scheduled by the compose first-task listener
(task.js lines 184-216): reject with the sentinel if cancelled or the
first error was the sentinel; otherwise dispatch on `firstErr == null`
to the matching factory (catching a thrown value into a rejection) or,
when that factory is absent, pass the outcome through directly. -/
def runComposeStep (cid : ComposeId) (firstErr firstResult : Val) (w : World) : World :=
  match w.comps.get? cid with
  | none => w
  | some c =>
    if c.cancelled || firstErr = cancelledSentinel then
      finish c.compositeTask cancelledSentinel .null w
    else if looseNull firstErr then
      match c.onResolve with
      | some f =>
        match invokeFactory f firstResult w with
        | (w1, .error e) => finish c.compositeTask e .null w1
        | (w1, .ok ot) => afterFactory cid ot w1
      | none => finish c.compositeTask .null firstResult w
    else
      match c.onReject with
      | some f =>
        match invokeFactory f firstErr w with
        | (w1, .error e) => finish c.compositeTask e .null w1
        | (w1, .ok ot) => afterFactory cid ot w1
      | none => finish c.compositeTask firstErr .null w

/-- One turn of the cooperative scheduler: pop and run the head of the
FIFO deferred queue. -/
def stepWorld (w : World) : World :=
  match w.queue with
  | [] => w
  | d :: rest =>
    let w1 : World := { w with queue := rest }
    match d with
    | .composeStep cid e r => runComposeStep cid e r w1
    | .runCleanup oid => { w1 with cleanupLog := w1.cleanupLog ++ [oid] }

/-- Run `n` scheduler turns. -/
def runWorld : Nat → World → World
  | 0, w => w
  | Nat.succ n, w => runWorld n (stepWorld w)

/-! ## Basic lemmas about the primitive operations -/

theorem get?_set_some {α : Type} (l : List α) (i : Nat) (a b : α)
    (h : l.get? i = some a) : (l.set i b).get? i = some b := by
  rw [List.get?_set_eq, h]; rfl

theorem notifyListener_tasks (l : Listener) (e r : Val) (w : World) :
    (notifyListener l e r w).tasks = w.tasks := by
  cases l with
  | user oid => rfl
  | finallyWrap oid => rfl
  | composeFirst cid =>
      simp only [notifyListener, setCompCurrent]
      rcases hc : w.comps.get? cid with _ | c <;> simp [hc]

theorem notifyListener_abortLog (l : Listener) (e r : Val) (w : World) :
    (notifyListener l e r w).abortLog = w.abortLog := by
  cases l with
  | user oid => rfl
  | finallyWrap oid => rfl
  | composeFirst cid =>
      simp only [notifyListener, setCompCurrent]
      rcases hc : w.comps.get? cid with _ | c <;> simp [hc]

theorem notifyListener_factoryLog (l : Listener) (e r : Val) (w : World) :
    (notifyListener l e r w).factoryLog = w.factoryLog := by
  cases l with
  | user oid => rfl
  | finallyWrap oid => rfl
  | composeFirst cid =>
      simp only [notifyListener, setCompCurrent]
      rcases hc : w.comps.get? cid with _ | c <;> simp [hc]

theorem finish_noop (tid : TaskId) (e v : Val) (w : World) (t : TaskRec) (o : Val × Val)
    (ht : w.tasks.get? tid = some t) (hf : t.finished = some o) :
    finish tid e v w = w := by
  simp only [finish, ht, hf]

theorem finish_get_other (tid tid' : TaskId) (e v : Val) (w : World) (h : tid' ≠ tid) :
    (finish tid e v w).tasks.get? tid' = w.tasks.get? tid' := by
  unfold finish
  rcases ht : w.tasks.get? tid with _ | t
  · rfl
  · rcases hf : t.finished with _ | o
    · rcases hl : t.onFinish with _ | l
      · simp only [ht, hf, hl]
        exact List.get?_set_ne _ _ (Ne.symm h)
      · simp only [ht, hf, hl, notifyListener_tasks]
        exact List.get?_set_ne _ _ (Ne.symm h)
    · simp only [ht, hf]

theorem finish_sets (tid : TaskId) (e v : Val) (w : World) (t : TaskRec)
    (ht : w.tasks.get? tid = some t) (hf : t.finished = none) :
    (finish tid e v w).tasks.get? tid = some { t with finished := some (e, v) } := by
  unfold finish
  rcases hl : t.onFinish with _ | l
  · simp only [ht, hf, hl]
    exact get?_set_some _ _ _ _ ht
  · simp only [ht, hf, hl, notifyListener_tasks]
    exact get?_set_some _ _ _ _ ht

theorem finish_abortLog (tid : TaskId) (e v : Val) (w : World) :
    (finish tid e v w).abortLog = w.abortLog := by
  unfold finish
  rcases ht : w.tasks.get? tid with _ | t
  · rfl
  · rcases hf : t.finished with _ | o
    · rcases hl : t.onFinish with _ | l
      · simp only [ht, hf, hl]
      · simp only [ht, hf, hl, notifyListener_abortLog]
    · simp only [ht, hf]

theorem finish_factoryLog (tid : TaskId) (e v : Val) (w : World) :
    (finish tid e v w).factoryLog = w.factoryLog := by
  unfold finish
  rcases ht : w.tasks.get? tid with _ | t
  · rfl
  · rcases hf : t.finished with _ | o
    · rcases hl : t.onFinish with _ | l
      · simp only [ht, hf, hl]
      · simp only [ht, hf, hl, notifyListener_factoryLog]
    · simp only [ht, hf]

theorem taskOutcome_elim {w : World} {tid : TaskId} {o : Val × Val}
    (h : taskOutcome w tid = some o) :
    ∃ t, w.tasks.get? tid = some t ∧ t.finished = some o := by
  unfold taskOutcome at h
  rcases hg : w.tasks.get? tid with _ | t
  · rw [hg] at h; simp at h
  · rw [hg] at h; exact ⟨t, rfl, h⟩

theorem taskOutcome_of_get {w : World} {tid : TaskId} {t : TaskRec}
    (h : w.tasks.get? tid = some t) : taskOutcome w tid = t.finished := by
  unfold taskOutcome
  rw [h]; rfl

theorem finish_noop_of_outcome (tid : TaskId) (e v : Val) (w : World) (o : Val × Val)
    (h : taskOutcome w tid = some o) : finish tid e v w = w := by
  obtain ⟨t, hg, hf⟩ := taskOutcome_elim h
  exact finish_noop tid e v w t o hg hf

theorem taskOutcome_finish_self (tid : TaskId) (e v : Val) (w : World) (t : TaskRec)
    (ht : w.tasks.get? tid = some t) (hf : t.finished = none) :
    taskOutcome (finish tid e v w) tid = some (e, v) := by
  rw [taskOutcome_of_get (finish_sets tid e v w t ht hf)]

theorem taskOutcome_finish_other (tid tid' : TaskId) (e v : Val) (w : World)
    (h : tid' ≠ tid) :
    taskOutcome (finish tid e v w) tid' = taskOutcome w tid' := by
  unfold taskOutcome
  rw [finish_get_other tid tid' e v w h]

theorem runActs_noop (acts : List SAct) (tid : TaskId) (w : World) (o : Val × Val)
    (h : taskOutcome w tid = some o) : runActs acts tid w = w := by
  induction acts with
  | nil => rfl
  | cons a rest ih =>
      cases a with
      | resolve v =>
          unfold runActs resolveCb
          rw [finish_noop_of_outcome tid .null v w o h]
          exact ih
      | reject v =>
          unfold runActs rejectCb
          rw [finish_noop_of_outcome tid v .null w o h]
          exact ih

theorem taskOutcome_congr {w' w : World} {tid : TaskId} (h : w'.tasks = w.tasks) :
    taskOutcome w' tid = taskOutcome w tid := by
  unfold taskOutcome
  rw [h]

theorem cancel_preserves_outcome (fuel : Nat) (tid' tid : TaskId) (w : World) (o : Val × Val)
    (h : taskOutcome w tid = some o) : taskOutcome (cancel fuel tid' w) tid = some o := by
  induction fuel generalizing tid' w with
  | zero => exact h
  | succ fuel ih =>
      unfold cancel
      rcases hg : w.tasks.get? tid' with _ | t
      · simp only [hg]
        exact h
      · rcases hf : t.finished with _ | o'
        · have hne : tid ≠ tid' := by
            intro he
            obtain ⟨t2, hg2, hf2⟩ := taskOutcome_elim h
            rw [he, hg] at hg2
            cases hg2
            rw [hf] at hf2
            cases hf2
          have h1 : taskOutcome (finish tid' cancelledSentinel .null w) tid = some o := by
            rw [taskOutcome_finish_other tid' tid _ _ w hne]
            exact h
          rcases ha : t.abort with _ | ab
          · simp only [hg, hf, ha]
            exact h1
          · cases ab with
            | user aid =>
                simp only [hg, hf, ha]
                exact (taskOutcome_congr rfl).trans h1
            | composeCancel cid =>
                rcases hc : (finish tid' cancelledSentinel .null w).comps.get? cid with _ | c
                · simp only [hg, hf, ha, hc]
                  exact h1
                · rcases hct : c.currentTask with _ | t2
                  · simp only [hg, hf, ha, hc, hct]
                    exact (taskOutcome_congr rfl).trans h1
                  · simp only [hg, hf, ha, hc, hct]
                    exact ih t2 _ ((taskOutcome_congr rfl).trans h1)
        · simp only [hg, hf]
          exact h

theorem setCompCurrent_tasks (cid : ComposeId) (ct : Option TaskId) (w : World) :
    (setCompCurrent cid ct w).tasks = w.tasks := by
  unfold setCompCurrent
  rcases h : w.comps.get? cid with _ | c
  · rfl
  · rfl

theorem setCompCurrent_factoryLog (cid : ComposeId) (ct : Option TaskId) (w : World) :
    (setCompCurrent cid ct w).factoryLog = w.factoryLog := by
  unfold setCompCurrent
  rcases h : w.comps.get? cid with _ | c
  · rfl
  · rfl

theorem setListener_factoryLog (tid : TaskId) (l : Listener) (w : World) :
    ((setListener tid l w).1).factoryLog = w.factoryLog := by
  unfold setListener
  rcases ht : w.tasks.get? tid with _ | t
  · rfl
  · rcases hl : t.onFinish with _ | l0
    · rcases hf : t.finished with _ | o
      · simp only [ht, hl, hf]
      · rcases o with ⟨e, r⟩
        simp only [ht, hl, hf, notifyListener_factoryLog]
    · simp only [ht, hl]

theorem compose_factoryLog (tid : TaskId) (f g : Option Factory) (w : World) :
    ((compose tid f g w).1).factoryLog = w.factoryLog := by
  have key : ∀ (w1 : World) (l : Listener) (n : Nat), w1.factoryLog = w.factoryLog →
      ((match setListener tid l w1 with
        | (w2, some e) => (w2, Except.error e)
        | (w2, none) => (w2, Except.ok n)).1).factoryLog = w.factoryLog := by
    intro w1 l n h1
    rcases hs : setListener tid l w1 with ⟨w2, ov⟩
    have h2 := setListener_factoryLog tid l w1
    rw [hs] at h2
    cases ov
    · exact h2.trans h1
    · exact h2.trans h1
  exact key _ _ _ rfl

theorem runActs_factoryLog (acts : List SAct) (tid : TaskId) (w : World) :
    (runActs acts tid w).factoryLog = w.factoryLog := by
  induction acts generalizing w with
  | nil => rfl
  | cons a rest ih =>
      cases a with
      | resolve v =>
          unfold runActs resolveCb
          rw [ih, finish_factoryLog]
      | reject v =>
          unfold runActs rejectCb
          rw [ih, finish_factoryLog]

theorem setAbort_factoryLog (tid : TaskId) (ab : Option Abort) (w : World) :
    (setAbort tid ab w).factoryLog = w.factoryLog := by
  unfold setAbort
  rcases ht : w.tasks.get? tid with _ | t
  · rfl
  · rfl

theorem startTask_factoryLog (st : StarterSpec) (w : World) :
    (startTask st w).2.factoryLog = w.factoryLog := by
  unfold startTask
  rcases hf : st.fin with ab | v
  · simp only [hf, setAbort_factoryLog, runActs_factoryLog]
  · simp only [hf, finish_factoryLog, runActs_factoryLog]

theorem afterFactory_factoryLog (cid : ComposeId) (ot : Option TaskId) (w : World) :
    (afterFactory cid ot w).factoryLog = w.factoryLog := by
  have key : ∀ (t : TaskId) (w1 : World), w1.factoryLog = w.factoryLog →
      ((match compose t (some (Factory.resolveComposite cid))
            (some (Factory.rejectComposite cid)) w1 with
        | (w2, Except.error e) => { w2 with uncaught := w2.uncaught ++ [e] }
        | (w2, Except.ok _) => w2) : World).factoryLog = w.factoryLog := by
    intro t w1 h1
    rcases hs : compose t (some (Factory.resolveComposite cid))
        (some (Factory.rejectComposite cid)) w1 with ⟨w2, r⟩
    have h2 := compose_factoryLog t (some (Factory.resolveComposite cid))
        (some (Factory.rejectComposite cid)) w1
    rw [hs] at h2
    cases r
    · exact h2.trans h1
    · exact h2.trans h1
  unfold afterFactory
  rcases ot with _ | t
  · rcases hc : (setCompCurrent cid none w).comps.get? cid with _ | c
    · simp only [hc, setCompCurrent_factoryLog]
    · simp only [hc, finish_factoryLog, setCompCurrent_factoryLog]
  · exact key t _ (setCompCurrent_factoryLog cid (some t) w)

theorem setCompCurrent_compositeTask (cid' : ComposeId) (ct : Option TaskId) (w : World)
    (cid : ComposeId) :
    ((setCompCurrent cid' ct w).comps.get? cid).map (·.compositeTask)
      = (w.comps.get? cid).map (·.compositeTask) := by
  unfold setCompCurrent
  rcases h : w.comps.get? cid' with _ | c
  · rfl
  · simp only []
    rw [List.get?_set]
    by_cases hq : cid' = cid
    · subst hq
      rw [h]
      simp
    · rw [if_neg hq]

theorem notifyListener_compositeTask (l : Listener) (e r : Val) (w : World) (cid : ComposeId) :
    ((notifyListener l e r w).comps.get? cid).map (·.compositeTask)
      = (w.comps.get? cid).map (·.compositeTask) := by
  cases l with
  | user oid => rfl
  | finallyWrap oid => rfl
  | composeFirst cid' =>
      simp only [notifyListener]
      exact setCompCurrent_compositeTask cid' none w cid

theorem finish_compositeTask (tid : TaskId) (e v : Val) (w : World) (cid : ComposeId) :
    ((finish tid e v w).comps.get? cid).map (·.compositeTask)
      = (w.comps.get? cid).map (·.compositeTask) := by
  unfold finish
  rcases ht : w.tasks.get? tid with _ | t
  · rfl
  · rcases hf : t.finished with _ | o
    · rcases hl : t.onFinish with _ | l
      · simp only [ht, hf, hl]
      · simp only [ht, hf, hl, notifyListener_compositeTask]
    · simp only [ht, hf]

/-! ## Claim theorems -/

/-- The outcome pair recorded by a single completion call: `resolve v`
records `(null, v)` (task.js line 69), `reject e` records `(e, null)`
(line 70). -/
def actOutcome : SAct → Val × Val
  | .resolve v => (.null, v)
  | .reject e => (e, .null)

/-- C3: for every task and every sequence of calls to its resolve and
reject completion callbacks, the outcome is set at most once: on an
already-finished task any further sequence of completion calls leaves
the whole world unchanged, and on a running task the first call fixes
the recorded pair against every subsequent call. -/
theorem c3_outcome_write_once (w : World) (tid : TaskId) :
    (∀ (o : Val × Val) (acts : List SAct),
        taskOutcome w tid = some o → runActs acts tid w = w) ∧
    (∀ (t : TaskRec) (a : SAct) (acts : List SAct),
        w.tasks.get? tid = some t → t.finished = none →
        taskOutcome (runActs (a :: acts) tid w) tid = some (actOutcome a)) := by
  constructor
  · intro o acts h
    exact runActs_noop acts tid w o h
  · intro t a acts ht hf
    cases a with
    | resolve v =>
        unfold runActs resolveCb
        have h1 : taskOutcome (finish tid .null v w) tid = some (.null, v) :=
          taskOutcome_finish_self tid .null v w t ht hf
        rw [runActs_noop acts tid _ _ h1]
        exact h1
    | reject e =>
        unfold runActs rejectCb
        have h1 : taskOutcome (finish tid e .null w) tid = some (e, .null) :=
          taskOutcome_finish_self tid e .null w t ht hf
        rw [runActs_noop acts tid _ _ h1]
        exact h1

/-- Witness for C3 at a concrete input: a task that resolved with `1`
ignores later completions, and on a fresh running task the first of
`resolve 5; reject 6` wins. -/
theorem c3_outcome_write_once_witness :
    runActs [.reject (.num 2), .resolve (.num 3)] 0
        (startTask ⟨[.resolve (.num 1)], .ret none⟩ initWorld).2
      = (startTask ⟨[.resolve (.num 1)], .ret none⟩ initWorld).2 ∧
    taskOutcome (runActs [.resolve (.num 5), .reject (.num 6)] 0
        (startTask ⟨[], .ret none⟩ initWorld).2) 0 = some (.null, .num 5) := by
  constructor
  · exact (c3_outcome_write_once _ 0).1 (.null, .num 1) _ (by decide)
  · exact (c3_outcome_write_once _ 0).2 ⟨none, none, none⟩ (.resolve (.num 5)) _
      (by decide) (by decide)

/-- C4: `cancel()` on a running task records the outcome
`('cancelled', null)` and invokes the starter-supplied abort
capability; `cancel()` on a finished task is a complete no-op (no
abort call, no change to the stored outcome or anything else). -/
theorem c4_cancel_semantics (w : World) (tid : TaskId) (t : TaskRec)
    (ht : w.tasks.get? tid = some t) :
    (t.finished = none →
        taskOutcome (cancelTask tid w) tid = some (cancelledSentinel, .null) ∧
        ∀ aid, t.abort = some (.user aid) →
          (cancelTask tid w).abortLog = w.abortLog ++ [aid]) ∧
    (∀ o, t.finished = some o → cancelTask tid w = w) := by
  constructor
  · intro hf
    have h1 : taskOutcome (finish tid cancelledSentinel .null w) tid
        = some (cancelledSentinel, .null) :=
      taskOutcome_finish_self tid cancelledSentinel .null w t ht hf
    constructor
    · unfold cancelTask cancel
      simp only [ht, hf]
      rcases ha : t.abort with _ | ab
      · exact h1
      · cases ab with
        | user aid => exact (taskOutcome_congr rfl).trans h1
        | composeCancel cid =>
            rcases hc : (finish tid cancelledSentinel .null w).comps.get? cid with _ | c
            · simp only [hc]
              exact h1
            · simp only [hc]
              rcases hct : c.currentTask with _ | t2
              · exact (taskOutcome_congr rfl).trans h1
              · exact cancel_preserves_outcome _ t2 tid _ _ ((taskOutcome_congr rfl).trans h1)
    · intro aid ha
      unfold cancelTask cancel
      simp only [ht, hf, ha]
      rw [finish_abortLog]
  · intro o hf
    unfold cancelTask cancel
    simp only [ht, hf]

/-- Witness for C4 at concrete inputs: cancelling a running task with
abort id `7` records the sentinel outcome and logs the abort;
cancelling an already-resolved task changes nothing. -/
theorem c4_cancel_semantics_witness :
    taskOutcome (cancelTask 0 (startTask ⟨[], .ret (some 7)⟩ initWorld).2) 0
        = some (cancelledSentinel, .null) ∧
    (cancelTask 0 (startTask ⟨[], .ret (some 7)⟩ initWorld).2).abortLog = [7] ∧
    cancelTask 0 (startTask ⟨[.resolve (.num 4)], .ret none⟩ initWorld).2
        = (startTask ⟨[.resolve (.num 4)], .ret none⟩ initWorld).2 := by
  refine ⟨?_, ?_, ?_⟩
  · exact (((c4_cancel_semantics _ 0 ⟨none, some (.user 7), none⟩ (by decide)).1) (by decide)).1
  · exact (((c4_cancel_semantics _ 0 ⟨none, some (.user 7), none⟩ (by decide)).1) (by decide)).2
      7 (by decide)
  · exact (c4_cancel_semantics _ 0 ⟨some (.null, .num 4), none, none⟩ (by decide)).2
      (.null, .num 4) (by decide)

/-- The value thrown when a second listener is registered
(task.js line 97). -/
def listenerOnceErr : Val := .errObj "thenDo/finally called more than once"

/-- C8: once a listener is registered, a second registration via
`thenDo` or `finally` throws; the failed call leaves the task's record
(and so the first listener) untouched, and a first listener that is a
user callback is still invoked exactly once with the final outcome:
finishing the task appends exactly its entry to the observation log and
any repeated finish is a no-op. -/
theorem c8_listener_once (w : World) (tid : TaskId) (t : TaskRec) (l0 : Listener)
    (ht : w.tasks.get? tid = some t) (hl : t.onFinish = some l0) :
    (∀ f g, (thenDo tid f g w).2 = .error listenerOnceErr ∧
        ((thenDo tid f g w).1).tasks.get? tid = some t) ∧
    (∀ oid, finallyDo tid oid w = (w, some listenerOnceErr)) ∧
    (∀ oid e v, l0 = .user oid → t.finished = none →
        (finish tid e v w).obsLog = w.obsLog ++ [(oid, e, v)] ∧
        ∀ e2 v2, finish tid e2 v2 (finish tid e v w) = finish tid e v w) := by
  have hlt : tid < w.tasks.length := (List.get?_eq_some.mp ht).1
  have happ : ∀ x : TaskRec, (w.tasks ++ [x]).get? tid = some t := by
    intro x
    rw [List.get?_append hlt]
    exact ht
  refine ⟨?_, ?_, ?_⟩
  · intro f g
    constructor
    · unfold thenDo compose setListener
      simp only [happ, hl]
      rfl
    · unfold thenDo compose setListener
      simp only [happ, hl]
  · intro oid
    unfold finallyDo setListener
    simp only [ht, hl]
    rfl
  · intro oid e v hu hf
    constructor
    · unfold finish
      simp only [ht, hf, hl, hu, notifyListener]
    · intro e2 v2
      exact finish_noop tid e2 v2 _ { t with finished := some (e, v) } (e, v)
        (finish_sets tid e v w t ht hf) rfl

/-- Witness for C8 at a concrete input: on a running task whose
listener is user callback `3`, a second `thenDo` and a second `finally`
both throw, the record survives, and resolving with `9` delivers
exactly one observation. -/
theorem c8_listener_once_witness :
    (thenDo 0 none none
        (setListener 0 (.user 3) (startTask ⟨[], .ret none⟩ initWorld).2).1).2
      = .error listenerOnceErr ∧
    finallyDo 0 5 (setListener 0 (.user 3) (startTask ⟨[], .ret none⟩ initWorld).2).1
      = ((setListener 0 (.user 3) (startTask ⟨[], .ret none⟩ initWorld).2).1,
          some listenerOnceErr) ∧
    (finish 0 (.null) (.num 9)
        (setListener 0 (.user 3) (startTask ⟨[], .ret none⟩ initWorld).2).1).obsLog
      = [(3, .null, .num 9)] := by
  refine ⟨?_, ?_, ?_⟩
  · exact ((c8_listener_once _ 0 ⟨none, none, some (.user 3)⟩ (.user 3)
      (by decide) (by decide)).1 none none).1
  · exact (c8_listener_once _ 0 ⟨none, none, some (.user 3)⟩ (.user 3)
      (by decide) (by decide)).2.1 5
  · exact ((c8_listener_once _ 0 ⟨none, none, some (.user 3)⟩ (.user 3)
      (by decide) (by decide)).2.2 3 (.null) (.num 9) rfl (by decide)).1

/-- C5: the continuation factories handed to `thenDo` run only on a
later deferred-scheduler turn: `thenDo` itself never invokes a factory
(the factory log is unchanged when it returns), completing a task never
invokes a factory inline, and even when the first task resolved
synchronously during its own construction (`withValue`) the factory
fires only once a scheduler turn runs, with the pending step sitting on
the deferred queue in between. -/
theorem c5_deferred_continuation :
    (∀ (w : World) (tid : TaskId) (f g : Option Factory),
        ((thenDo tid f g w).1).factoryLog = w.factoryLog) ∧
    (∀ (w : World) (tid : TaskId) (e v : Val),
        (finish tid e v w).factoryLog = w.factoryLog) ∧
    (∀ (v : Val) (fid : Nat),
        ((thenDo 0 (some (.user fid .nothing)) none
            (withValue v initWorld).2).1).factoryLog = [] ∧
        ((thenDo 0 (some (.user fid .nothing)) none
            (withValue v initWorld).2).1).queue = [.composeStep 0 .null v] ∧
        (stepWorld (thenDo 0 (some (.user fid .nothing)) none
            (withValue v initWorld).2).1).factoryLog = [(fid, v)]) := by
  refine ⟨?_, ?_, ?_⟩
  · intro w tid f g
    exact compose_factoryLog tid f g w
  · intro w tid e v
    exact finish_factoryLog tid e v w
  · intro v fid
    exact ⟨rfl, rfl, rfl⟩

/-- C6: a value thrown synchronously by a starter that has not already
completed its task is caught and rejects the task with the thrown value
(task.js lines 71-73); a value thrown by a continuation factory is
caught and rejects the still-unfinished composite with it (lines
206-209); in particular a starter throwing `"boom"` yields a task whose
listener observes error `"boom"` and a `null` value. -/
theorem c6_thrown_values_reject (w : World) (v e r : Val) :
    taskOutcome (startTask ⟨[], .raise v⟩ w).2 (startTask ⟨[], .raise v⟩ w).1
      = some (v, .null) ∧
    (∀ (cid : ComposeId) (c : ComposeRec) (fid : Nat) (t : TaskRec),
        w.comps.get? cid = some c → c.cancelled = false →
        c.onResolve = some (.user fid (.raise v)) →
        looseNull e = true →
        w.tasks.get? c.compositeTask = some t → t.finished = none →
        taskOutcome (runComposeStep cid e r w) c.compositeTask = some (v, .null)) ∧
    (setListener 0 (.user 1)
        (startTask ⟨[], .raise (.str "boom")⟩ initWorld).2).1.obsLog
      = [(1, .str "boom", .null)] := by
  refine ⟨?_, ?_, rfl⟩
  · unfold startTask runActs
    exact taskOutcome_finish_self w.tasks.length v .null _ ⟨none, none, none⟩
      (List.get?_concat_length w.tasks ⟨none, none, none⟩) rfl
  · intro cid c fid t hc hcanc hres he ht hf
    have hns : ¬(e = cancelledSentinel) := by
      cases e <;> simp [looseNull] at he <;> simp [cancelledSentinel]
    unfold runComposeStep
    simp only [hc, hcanc, decide_eq_false hns, Bool.false_or, Bool.or_false, if_false]
    simp only [Bool.false_eq_true, if_false, he, if_true, hres, invokeFactory]
    exact taskOutcome_finish_self c.compositeTask v .null _ t ht hf

/-- Witness for C6 at concrete inputs: the starter-throw case at
`"boom"`, and a deferred step whose `onResolve` factory throws
`"kaboom"` rejecting composite task `1` with it. -/
theorem c6_thrown_values_reject_witness :
    taskOutcome (startTask ⟨[], .raise (.str "boom")⟩ initWorld).2 0
      = some (.str "boom", .null) ∧
    taskOutcome (runComposeStep 0 .null (.num 9)
        (thenDo 0 (some (.user 5 (.raise (.str "kaboom")))) none
          (startTask ⟨[], .ret none⟩ initWorld).2).1) 1
      = some (.str "kaboom", .null) := by
  constructor
  · exact (c6_thrown_values_reject initWorld (.str "boom") .null .null).1
  · exact (c6_thrown_values_reject _ (.str "kaboom") .null (.num 9)).2.1 0
      ⟨false, some 0, 1, some (.user 5 (.raise (.str "kaboom"))), none⟩ 5
      ⟨none, some (.composeCancel 0), none⟩
      (by decide) (by decide) (by decide) (by decide) (by decide) (by decide)

/-- C7: on a composite whose `onReject` is absent, a deferred step for
a first-task failure with a non-nullish, non-sentinel error rejects the
still-unfinished composite with that same error and never invokes any
factory (the factory log is unchanged, so the `onResolve` continuation
is never reached). -/
theorem c7_reject_passthrough (w : World) (cid : ComposeId) (c : ComposeRec)
    (e r : Val) (t : TaskRec)
    (hc : w.comps.get? cid = some c) (hcanc : c.cancelled = false)
    (hrej : c.onReject = none)
    (he : looseNull e = false) (hns : e ≠ cancelledSentinel)
    (ht : w.tasks.get? c.compositeTask = some t) (hf : t.finished = none) :
    taskOutcome (runComposeStep cid e r w) c.compositeTask = some (e, .null) ∧
    (runComposeStep cid e r w).factoryLog = w.factoryLog := by
  unfold runComposeStep
  simp only [hc, hcanc, decide_eq_false hns, Bool.false_or, Bool.or_false, if_false]
  simp only [Bool.false_eq_true, if_false, he, hrej]
  exact ⟨taskOutcome_finish_self c.compositeTask e .null w t ht hf,
    finish_factoryLog c.compositeTask e .null w⟩

/-- Witness for C7 at a concrete input: `taskA.thenDo(onResolveFn)`
with no `onReject`, where the deferred step carries first-task error
`"E"`: composite task `1` rejects with `"E"` and the factory log stays
empty. -/
theorem c7_reject_passthrough_witness :
    taskOutcome (runComposeStep 0 (.str "E") .null
        (thenDo 0 (some (.user 1 .nothing)) none
          (startTask ⟨[], .ret none⟩ initWorld).2).1) 1
      = some (.str "E", .null) ∧
    (runComposeStep 0 (.str "E") .null
        (thenDo 0 (some (.user 1 .nothing)) none
          (startTask ⟨[], .ret none⟩ initWorld).2).1).factoryLog = [] := by
  exact c7_reject_passthrough _ 0
    ⟨false, some 0, 1, some (.user 1 .nothing), none⟩ (.str "E") .null
    ⟨none, some (.composeCancel 0), none⟩
    (by decide) (by decide) (by decide) (by decide) (by decide) (by decide) (by decide)

/-- C10: a starter that completes synchronously and then throws leaves
the recorded outcome at the first completion — success with `v` after
`resolve(v)`, failure with `e` after `reject(e)` — and the thrown value
is caught by `Task.start` and discarded (the catch calls `finish`,
which is a no-op on the already-finished task). -/
theorem c10_throw_after_completion (w : World) (v u e : Val) :
    taskOutcome (startTask ⟨[.resolve v], .raise u⟩ w).2
        (startTask ⟨[.resolve v], .raise u⟩ w).1 = some (.null, v) ∧
    taskOutcome (startTask ⟨[.reject e], .raise u⟩ w).2
        (startTask ⟨[.reject e], .raise u⟩ w).1 = some (e, .null) := by
  have hfresh : (w.tasks ++ [(⟨none, none, none⟩ : TaskRec)]).get? w.tasks.length
      = some ⟨none, none, none⟩ := List.get?_concat_length w.tasks ⟨none, none, none⟩
  constructor
  · show taskOutcome (finish w.tasks.length u .null (finish w.tasks.length .null v
        { w with tasks := w.tasks ++ [⟨none, none, none⟩] })) w.tasks.length
      = some (.null, v)
    have h1 : taskOutcome (finish w.tasks.length .null v
        { w with tasks := w.tasks ++ [⟨none, none, none⟩] }) w.tasks.length
        = some (.null, v) :=
      taskOutcome_finish_self _ _ _ _ ⟨none, none, none⟩ hfresh rfl
    rw [finish_noop_of_outcome _ u .null _ (.null, v) h1]
    exact h1
  · show taskOutcome (finish w.tasks.length u .null (finish w.tasks.length e .null
        { w with tasks := w.tasks ++ [⟨none, none, none⟩] })) w.tasks.length
      = some (e, .null)
    have h1 : taskOutcome (finish w.tasks.length e .null
        { w with tasks := w.tasks ++ [⟨none, none, none⟩] }) w.tasks.length
        = some (e, .null) :=
      taskOutcome_finish_self _ _ _ _ ⟨none, none, none⟩ hfresh rfl
    rw [finish_noop_of_outcome _ u .null _ (e, .null) h1]
    exact h1

theorem taskOutcome_setAbort (tid' : TaskId) (ab : Option Abort) (w : World) (tid : TaskId) :
    taskOutcome (setAbort tid' ab w) tid = taskOutcome w tid := by
  unfold setAbort taskOutcome
  rcases ht : w.tasks.get? tid' with _ | t
  · rfl
  · simp only []
    rw [List.get?_set]
    by_cases hq : tid' = tid
    · subst hq
      rw [if_pos rfl, ht]
      rfl
    · rw [if_neg hq]

/-- C9: rejecting with a nullish error (`null` or `undefined`) records
the pair `(e, null)`, and the sequencer's dispatch compares the stored
error to null loosely (`firstErr == null`, task.js line 191), so such a
completion is dispatched as a success: `onResolve` is invoked with the
stored (null) result and `onReject` is never invoked — the factory log
gains exactly the `onResolve` entry.  Concretely, a starter that calls
`reject(null)` followed by `thenDo(f, g)` invokes `f` with `null`. -/
theorem c9_nullish_error_dispatches_resolve (w : World) :
    (∀ e : Val, looseNull e = true →
        taskOutcome (startTask ⟨[.reject e], .ret none⟩ w).2
          (startTask ⟨[.reject e], .ret none⟩ w).1 = some (e, .null)) ∧
    (∀ (cid : ComposeId) (c : ComposeRec) (e r : Val) (fid gid : Nat)
        (fr gr : FactoryRet),
        w.comps.get? cid = some c → c.cancelled = false →
        c.onResolve = some (.user fid fr) → c.onReject = some (.user gid gr) →
        looseNull e = true →
        (runComposeStep cid e r w).factoryLog = w.factoryLog ++ [(fid, r)]) ∧
    (∀ fid gid : Nat,
        (runWorld 1 (thenDo 0 (some (.user fid .nothing)) (some (.user gid .nothing))
            (startTask ⟨[.reject .null], .ret none⟩ initWorld).2).1).factoryLog
          = [(fid, .null)]) := by
  refine ⟨?_, ?_, ?_⟩
  · intro e he
    show taskOutcome (setAbort w.tasks.length none (finish w.tasks.length e .null
        { w with tasks := w.tasks ++ [⟨none, none, none⟩] })) w.tasks.length
      = some (e, .null)
    rw [taskOutcome_setAbort]
    exact taskOutcome_finish_self _ _ _ _ ⟨none, none, none⟩
      (List.get?_concat_length w.tasks ⟨none, none, none⟩) rfl
  · intro cid c e r fid gid fr gr hc hcanc hres hrej he
    have hns : ¬(e = cancelledSentinel) := by
      cases e <;> simp [looseNull] at he <;> simp [cancelledSentinel]
    unfold runComposeStep
    simp only [hc, hcanc, decide_eq_false hns, Bool.false_or, Bool.or_false, if_false]
    simp only [Bool.false_eq_true, if_false, he, if_true, hres, invokeFactory]
    cases fr with
    | task tid =>
        rw [afterFactory_factoryLog]
    | newTask st =>
        rcases hst : startTask st { w with factoryLog := w.factoryLog ++ [(fid, r)] }
            with ⟨tid2, w2⟩
        have h2 := startTask_factoryLog st { w with factoryLog := w.factoryLog ++ [(fid, r)] }
        rw [hst] at h2
        simp only [hst, afterFactory_factoryLog]
        exact h2
    | nothing =>
        rw [afterFactory_factoryLog]
    | raise v =>
        rw [finish_factoryLog]
  · intro fid gid
    rfl

/-- Witness for C9 at concrete inputs: rejecting with `null` records
`(null, null)`; a deferred step on composite `0` with factories
`f = 4`, `g = 5` and first error `undefined` logs only `(4, null)`. -/
theorem c9_nullish_error_dispatches_resolve_witness :
    taskOutcome (startTask ⟨[.reject .null], .ret none⟩ initWorld).2 0
      = some (.null, .null) ∧
    (runComposeStep 0 .undef .null
        (thenDo 0 (some (.user 4 .nothing)) (some (.user 5 .nothing))
          (startTask ⟨[], .ret none⟩ initWorld).2).1).factoryLog
      = [(4, .null)] := by
  constructor
  · exact (c9_nullish_error_dispatches_resolve initWorld).1 .null (by decide)
  · exact (c9_nullish_error_dispatches_resolve _).2.1 0
      ⟨false, some 0, 1, some (.user 4 .nothing), some (.user 5 .nothing)⟩
      .undef .null 4 5 .nothing .nothing
      (by decide) (by decide) (by decide) (by decide) (by decide)

/-- Cancelling composite `C = taskA.thenDo(f)` (task id 1) while
`taskA` (task id 0, abort capability `aid`) is still running. -/
def cancelBeforeFirstFinishes (aid : Nat) (f : Factory) : World :=
  cancelTask 1 (thenDo 0 (some f) none
    (startTask ⟨[], .ret (some aid)⟩ initWorld).2).1

/-- Cancelling composite `C = taskA.thenDo(f)` (task id 2) after
`taskA` (task id 0, abort id 1) resolved and the factory produced the
still-running sub-task (task id 1, abort id 2), before that sub-task
finishes: one scheduler turn has run the deferred continuation. -/
def cancelAfterSubtaskProduced : World :=
  cancelTask 2 (runWorld 1 (resolveCb 0 (.num 0)
    (thenDo 0 (some (.user 0 (.task 1))) none
      (startTask ⟨[], .ret (some 2)⟩
        (startTask ⟨[], .ret (some 1)⟩ initWorld).2).2).1))

/-- C2: cancellation forwarding through a composite.  Cancelling `C`
before `taskA` finishes invokes exactly `taskA`'s abort capability and
finishes both `C` and `taskA` with the cancellation sentinel (for every
abort id and every continuation factory); cancelling `C` after `taskA`
finished and the factory produced a sub-task invokes exactly the
sub-task's abort capability (id 2) — not `taskA`'s (id 1) — and `C`
and the sub-task finish with the sentinel. -/
theorem c2_cancellation_forwarding (aid : Nat) (f : Factory) :
    (cancelBeforeFirstFinishes aid f).abortLog = [aid] ∧
    taskOutcome (cancelBeforeFirstFinishes aid f) 1
      = some (cancelledSentinel, .null) ∧
    taskOutcome (cancelBeforeFirstFinishes aid f) 0
      = some (cancelledSentinel, .null) ∧
    cancelAfterSubtaskProduced.abortLog = [2] ∧
    taskOutcome cancelAfterSubtaskProduced 2 = some (cancelledSentinel, .null) ∧
    taskOutcome cancelAfterSubtaskProduced 1 = some (cancelledSentinel, .null) := by
  refine ⟨rfl, rfl, rfl, by decide, by decide, by decide⟩

theorem afterFactory_none_outcome_other (icid : ComposeId) (w1 : World)
    (ictid octid : TaskId)
    (hmap : (w1.comps.get? icid).map (·.compositeTask) = some ictid)
    (hne : ictid ≠ octid) :
    taskOutcome (afterFactory icid none w1) octid = taskOutcome w1 octid := by
  unfold afterFactory
  have hmap2 : ((setCompCurrent icid none w1).comps.get? icid).map (·.compositeTask)
      = some ictid := by
    rw [setCompCurrent_compositeTask]
    exact hmap
  rcases hopt : (setCompCurrent icid none w1).comps.get? icid with _ | c2
  · rw [hopt] at hmap2
    cases hmap2
  · have hct : c2.compositeTask = ictid := by
      rw [hopt] at hmap2
      simpa using hmap2
    simp only [hopt]
    rw [hct, taskOutcome_finish_other ictid octid _ _ _ (Ne.symm hne)]
    exact taskOutcome_congr (setCompCurrent_tasks icid none w1)

/-- The chain `taskA.thenDo(f)` (composite task id 2) one scheduler
turn after `taskA` (task id 0) resolved: the factory has returned the
still-running sub-task (task id 1), whose listener now feeds the inner
compose record (id 1, inner composite task id 3) created by
`currentTask.thenDo(resolveCompositeTask, rejectCompositeTask)`. -/
def chainReadyWorld : World :=
  runWorld 1 (resolveCb 0 (.num 1)
    (thenDo 0 (some (.user 0 (.task 1))) none
      (startTask ⟨[], .ret none⟩
        (startTask ⟨[], .ret none⟩ initWorld).2).2).1)

/-- The same chain after the sub-task is cancelled directly and the
deferred queue is drained. -/
def subtaskCancelledRun : World :=
  runWorld 5 (cancelTask 1 chainReadyWorld)

/-- Counterexample to C1 as stated: in `taskA.thenDo(f)` with `f`
returning sub-task `1`, cancelling that sub-task finishes it with
outcome `('cancelled', null)`, the deferred queue drains to empty, yet
the composite (task `2`) never finishes — it does not finish "with the
sub-task's outcome", because the chained listener intercepts the
sentinel error and rejects the anonymous inner composite (task `3`)
instead. -/
theorem c1_subtask_chain_cex :
    taskOutcome subtaskCancelledRun 1 = some (cancelledSentinel, .null) ∧
    subtaskCancelledRun.queue = [] ∧
    taskOutcome subtaskCancelledRun 2 = none := by
  refine ⟨by decide, by decide, by decide⟩

/-- C1 (amended): when the factory returns a sub-task, the composite's
resolve/reject are attached through `thenDo`, so on the deferred step
for the sub-task's completion `(e, v)`: a success (nullish `e`)
resolves the still-unfinished composite with the sub-task's result `v`;
a failure with `e` neither nullish nor the sentinel rejects it with
`e`; but a sub-task finishing with the sentinel error `'cancelled'`
leaves the composite unfinished (the step only rejects the inner
composite). -/
theorem c1_subtask_chain_amended (w : World) (icid ocid : ComposeId) (ict : Option TaskId)
    (ictid octid : TaskId) (oc : ComposeRec) (ot : TaskRec) (e v : Val)
    (hic : w.comps.get? icid = some ⟨false, ict, ictid,
        some (.resolveComposite ocid), some (.rejectComposite ocid)⟩)
    (hoc : w.comps.get? ocid = some oc) (hocc : oc.compositeTask = octid)
    (hot : w.tasks.get? octid = some ot) (hfo : ot.finished = none)
    (hne : ictid ≠ octid) :
    (looseNull e = true →
        taskOutcome (runComposeStep icid e v w) octid = some (.null, v)) ∧
    (looseNull e = false → e ≠ cancelledSentinel →
        taskOutcome (runComposeStep icid e v w) octid = some (e, .null)) ∧
    (e = cancelledSentinel →
        taskOutcome (runComposeStep icid e v w) octid = none) := by
  refine ⟨?_, ?_, ?_⟩
  · intro he
    have hns : ¬(e = cancelledSentinel) := by
      cases e <;> simp [looseNull] at he <;> simp [cancelledSentinel]
    have hmap1 : ((finish octid .null v w).comps.get? icid).map (·.compositeTask)
        = some ictid := by
      rw [finish_compositeTask, hic]
      rfl
    unfold runComposeStep
    simp only [hic, decide_eq_false hns, Bool.false_or, Bool.or_false, if_false]
    simp only [Bool.false_eq_true, if_false, he, if_true, invokeFactory, hoc, hocc]
    rw [afterFactory_none_outcome_other icid _ ictid octid hmap1 hne]
    exact taskOutcome_finish_self octid .null v w ot hot hfo
  · intro he hns
    have hmap1 : ((finish octid e .null w).comps.get? icid).map (·.compositeTask)
        = some ictid := by
      rw [finish_compositeTask, hic]
      rfl
    unfold runComposeStep
    simp only [hic, decide_eq_false hns, Bool.false_or, Bool.or_false, if_false]
    simp only [Bool.false_eq_true, if_false, he, invokeFactory, hoc, hocc]
    rw [afterFactory_none_outcome_other icid _ ictid octid hmap1 hne]
    exact taskOutcome_finish_self octid e .null w ot hot hfo
  · intro hs
    subst hs
    unfold runComposeStep
    simp only [hic, decide_True, Bool.or_true, if_true]
    rw [taskOutcome_finish_other ictid octid _ _ _ (Ne.symm hne)]
    rw [taskOutcome_of_get hot]
    exact hfo

/-- Witness for the amended C1 at a concrete input: in
`chainReadyWorld` the deferred step for a sub-task success with result
`42` resolves the composite (task `2`) with `42`. -/
theorem c1_subtask_chain_amended_witness :
    taskOutcome (runComposeStep 1 .null (.num 42) chainReadyWorld) 2
      = some (.null, .num 42) := by
  exact (c1_subtask_chain_amended chainReadyWorld 1 0 (some 1) 3 2
    ⟨false, some 1, 2, some (.user 0 (.task 1)), none⟩
    ⟨none, some (.composeCancel 0), none⟩ .null (.num 42)
    (by decide) (by decide) (by decide) (by decide) (by decide) (by decide)).1 (by decide)
